import Mathlib

/-!
Verification of the dengue feature-engineering pipeline.

This file gives a shallow embedding of the core logic of the repository:

* `src/dengue/features/serology.py` — the dominant-strain resolver (the SQL
  `CASE` expression with `LAG`) and the Python days-since-switch scan;
* `src/dengue/features/climate.py` — the rolling-window / lag transforms of
  the temperature, El Niño SSTA and dry-days features (embedding the SQL
  window-function semantics `ROWS BETWEEN w-1 PRECEDING AND CURRENT ROW`,
  `PARTITION BY year` and `LAG(col, l, 0)`);
* `src/dengue/datasets/train_data/national_analysis.py` — the left-join
  assembly of the training table with its `days_since_switch` fill;
* the `(year, week)` join keys produced by the different queries
  (PostgreSQL `EXTRACT(YEAR)`, `EXTRACT(WEEK)`, `to_char(date,'IYYY')`,
  `to_char(date,'IW')`), embedded through an executable ISO-8601 week
  calculation;
* the column naming of the `get_days_no_rain` query, whose rolling-sum CTE
  hardcodes the name `days_no_rain_12_wk_total`.

Weekly numeric series are modelled as `List ℚ`, dominant-strain arrays as
`List ℕ` (compared as sets where the Python code applies `set(...)`), and
SQL/pandas missing values as `Option`.
-/

set_option autoImplicit false

namespace Dengue

/-! ### Serology: `get_time_since_switch` (src/dengue/features/serology.py)

The SQL `CASE` expression resolving each week's dominant set.  `prev` is the
value of `LAG(dominant_strain_curr_week) OVER (ORDER BY date)`, i.e. the
previous row's *raw* aggregated array (`none` on the first row, where SQL
yields `NULL` and every `NULL` comparison makes the guards fall through to
the `ELSE` branch returning `curr`). -/

def dominantEdited (prev : Option (List ℕ)) (curr : List ℕ) : List ℕ :=
  if curr.length = 1 then curr
  else
    match prev with
    | some [x] => if curr.length > 1 ∧ x ∈ curr then [x] else curr
    | _ => curr

/-- The `dom_strain_unaltered` scan: each row's `prev` is the previous row's
raw `dominant_strain_curr_week` array, exactly as `LAG` provides it. -/
def resolveDominant (prev : Option (List ℕ)) : List (List ℕ) → List (List ℕ)
  | [] => []
  | c :: rest => dominantEdited prev c :: resolveDominant (some c) rest

/-- Resolver as the specification describes it (§4.1/§4.3): the tie-break
consults the previous week's *resolved* dominant set rather than the raw
one.  Declared only to be compared against `resolveDominant`. -/
def resolveDominantSpecPrev (prev : Option (List ℕ)) : List (List ℕ) → List (List ℕ)
  | [] => []
  | c :: rest =>
      let r := dominantEdited prev c
      r :: resolveDominantSpecPrev (some r) rest

/-- First Python loop of `get_time_since_switch`: the `switched` column.
`dom` starts as the empty list and is replaced by each row's array; the
comparison is Python `set(dom) != set(row)`. -/
def switchedList (dom : List ℕ) : List (List ℕ) → List Bool
  | [] => []
  | d :: rest => decide (dom.toFinset ≠ d.toFinset) :: switchedList d rest

/-- Second Python loop: `counter` resets to 0 on a switch, the pre-increment
value is emitted, and the counter advances by 7 after every row. -/
def daysList (counter : ℕ) : List Bool → List ℕ
  | [] => []
  | sw :: rest =>
      let c := if sw then 0 else counter
      c :: daysList (c + 7) rest

/-- The composed days-since-switch scan over the resolved dominant sets. -/
def daysSinceSwitch (doms : List (List ℕ)) : List ℕ :=
  daysList 0 (switchedList [] doms)

/-- Keyed form of the Python post-processing: rows carry a `(year, week)`
key and the resolved dominant array; the output pairs each key with its
`days_since_switch` value.  The loops never inspect the keys. -/
def get_time_since_switch (df : List ((ℤ × ℤ) × List ℕ)) : List ((ℤ × ℤ) × ℕ) :=
  List.zip (df.map Prod.fst) (daysSinceSwitch (df.map Prod.snd))

/-- Strict lexicographic order on `(year, week)` keys. -/
def keyLtb (a b : ℤ × ℤ) : Bool :=
  a.1 < b.1 || (a.1 == b.1 && a.2 < b.2)

/-- Adjacent-pairs check that a key list is strictly increasing (hence also
duplicate-free). -/
def keysSortedb : List (ℤ × ℤ) → Bool
  | [] => true
  | [_] => true
  | a :: b :: rest => keyLtb a b && keysSortedb (b :: rest)

/-- Detector as the specification describes it (§4.2/§7): reject a sequence
whose keys are not strictly increasing with `InvalidSequenceError`, all or
nothing.  Declared only to be compared against `get_time_since_switch`. -/
def get_time_since_switch_specChecked (df : List ((ℤ × ℤ) × List ℕ)) :
    Except String (List ((ℤ × ℤ) × ℕ)) :=
  if keysSortedb (df.map Prod.fst) then Except.ok (get_time_since_switch df)
  else Except.error "InvalidSequenceError"

/-! ### Climate features (src/dengue/features/climate.py)

Weekly series are `List ℚ` in `(year, eweek)` order.  `AVG`/`SUM` `OVER
(ORDER BY ... ROWS BETWEEN w-1 PRECEDING AND CURRENT ROW)` aggregates, at
row `i`, the rows with indices in `[i-w+1, i]` clipped at the start of the
series; `LAG(col, l, 0)` reads the value `l` rows earlier, defaulting to 0. -/

def mean (xs : List ℚ) : ℚ := xs.sum / xs.length

/-- The `scaled` CTE of `get_temp_weekly`:
`temperature_max - AVG(temperature_max) OVER ()`. -/
def meanCenter (xs : List ℚ) : List ℚ := xs.map (fun x => x - mean xs)

/-- Rows `[i-w+1, i]` of the series, clipped at the start (the SQL frame
`ROWS BETWEEN w-1 PRECEDING AND CURRENT ROW`). -/
def windowSlice (w i : ℕ) (xs : List ℚ) : List ℚ := (xs.take (i + 1)).drop (i + 1 - w)

def rollingAvg (w : ℕ) (xs : List ℚ) : List ℚ :=
  (List.range xs.length).map (fun i => mean (windowSlice w i xs))

def rollingSum (w : ℕ) (xs : List ℚ) : List ℚ :=
  (List.range xs.length).map (fun i => (windowSlice w i xs).sum)

/-- SQL `LAG(col, l, 0) OVER (ORDER BY year, eweek)`. -/
def lagShift (l : ℕ) (xs : List ℚ) : List ℚ := (List.replicate l 0 ++ xs).take xs.length

/-- Query of `get_temp_weekly`: mean-centering, then the rolling mean over
`window` weeks, then the lag with default 0. -/
def get_temp_weekly (w l : ℕ) (xs : List ℚ) : List ℚ :=
  lagShift l (rollingAvg w (meanCenter xs))

/-- Query of `get_elnino34_ssta_weekly`: the rolling mean is taken directly
over the raw `ssta` values, then lagged with default 0. -/
def get_elnino34_ssta_weekly (w l : ℕ) (xs : List ℚ) : List ℚ :=
  lagShift l (rollingAvg w xs)

/-- Window of the `rolling_sum` CTE of `get_days_no_rain`:
`SUM(days_no_rain) OVER (PARTITION BY year ORDER BY eweek ROWS w-1
PRECEDING)` — the last `w` rows *of the same year* up to row `i`, for rows
sorted by `(year, eweek)`. -/
def lastWindow (w : ℕ) (xs : List ℚ) : List ℚ := xs.drop (xs.length - w)

def partitionWindow (w i : ℕ) (rows : List (ℤ × ℚ)) : List ℚ :=
  lastWindow w
    (((rows.take (i + 1)).filter (fun r => r.1 == (rows.getD i (0, 0)).1)).map Prod.snd)

def rollingSumByYear (w : ℕ) (rows : List (ℤ × ℚ)) : List ℚ :=
  (List.range rows.length).map (fun i => (partitionWindow w i rows).sum)

def get_days_no_rain (w l : ℕ) (rows : List (ℤ × ℚ)) : List ℚ :=
  lagShift l (rollingSumByYear w rows)

/-! Validation wrappers: each climate query function starts with
`if window < 1: raise ValueError("Window must be a positive integer")`. -/

def get_temp_weekly_checked (w : ℤ) (l : ℕ) (xs : List ℚ) : Except String (List ℚ) :=
  if w < 1 then Except.error "Window must be a positive integer"
  else Except.ok (get_temp_weekly w.toNat l xs)

def get_elnino34_ssta_weekly_checked (w : ℤ) (l : ℕ) (xs : List ℚ) :
    Except String (List ℚ) :=
  if w < 1 then Except.error "Window must be a positive integer"
  else Except.ok (get_elnino34_ssta_weekly w.toNat l xs)

def get_days_no_rain_checked (w : ℤ) (l : ℕ) (rows : List (ℤ × ℚ)) :
    Except String (List ℚ) :=
  if w < 1 then Except.error "Window must be a positive integer"
  else Except.ok (get_days_no_rain w.toNat l rows)

def isOkb {α : Type} : Except String α → Bool
  | Except.ok _ => true
  | Except.error _ => false

/-! ### Dataset assembly (src/dengue/datasets/train_data/national_analysis.py)

`NationalAnalysisTrainData.get` left-joins every feature frame onto the
temperature frame on `(year, eweek)`, then runs
`df.days_since_switch = df.days_since_switch.fillna(0)` followed by
`.astype(int)`; no other column is filled.  Joined frames are modelled as
lookup functions returning `Option` (a missing key joins as missing). -/

structure AssembledRow where
  year : ℤ
  eweek : ℤ
  temp : ℚ
  days_since_switch : ℤ
  nino : Option ℚ
  days_no_rain : Option ℚ
  cases : Option ℚ
  population : Option ℚ
deriving DecidableEq

def defaultRow : AssembledRow :=
  { year := 0, eweek := 0, temp := 0, days_since_switch := 0,
    nino := none, days_no_rain := none, cases := none, population := none }

def assemble (temp : List ((ℤ × ℤ) × ℚ)) (sero : ℤ × ℤ → Option ℤ)
    (nino rain tgt : ℤ × ℤ → Option ℚ) (pop : ℤ → Option ℚ) : List AssembledRow :=
  temp.map (fun r =>
    { year := r.1.1
      eweek := r.1.2
      temp := r.2
      days_since_switch := (sero r.1).getD 0
      nino := nino r.1
      days_no_rain := rain r.1
      cases := tgt r.1
      population := pop r.1.1 })

/-! ### Join keys: calendar year vs ISO week-year

The serology query emits `EXTRACT(YEAR from date)` and
`EXTRACT(WEEK from date)`; the climate and target queries emit
`to_char(date, 'IYYY')` and `to_char(date, 'IW')`.  In PostgreSQL `WEEK`
and `IW` are both the ISO-8601 week number, `IYYY` is the ISO week-year,
and `YEAR` is the calendar year.  Dates are Gregorian `(year, month, day)`
triples, and the ISO week computation below is the standard one: week
`(dayOfYear + 10 - isoDayOfWeek) / 7`, pushed into the previous or next
week-year at the boundaries. -/

structure Date where
  year : ℕ
  month : ℕ
  day : ℕ

def isLeap (y : ℕ) : Bool := (y % 4 == 0 && y % 100 != 0) || (y % 400 == 0)

def daysInMonth (y m : ℕ) : ℕ :=
  if m = 2 then (if isLeap y then 29 else 28)
  else if m = 4 ∨ m = 6 ∨ m = 9 ∨ m = 11 then 30
  else 31

def dayOfYear (d : Date) : ℕ :=
  ((List.range (d.month - 1)).map (fun k => daysInMonth d.year (k + 1))).sum + d.day

/-- Day of week by Zeller's congruence, in ISO numbering
(Monday = 1, ..., Sunday = 7). -/
def isoDayOfWeek (d : Date) : ℕ :=
  let mm := if d.month ≤ 2 then d.month + 12 else d.month
  let yy := if d.month ≤ 2 then d.year - 1 else d.year
  let k := yy % 100
  let j := yy / 100
  let h := (d.day + 13 * (mm + 1) / 5 + k + k / 4 + j / 4 + 5 * j) % 7
  (h + 5) % 7 + 1

/-- A year has 53 ISO weeks iff 1 January falls on Thursday, or on
Wednesday in a leap year. -/
def isoLongYear (y : ℕ) : Bool :=
  isoDayOfWeek ⟨y, 1, 1⟩ == 4 || (isLeap y && isoDayOfWeek ⟨y, 1, 1⟩ == 3)

def isoWeeksInYear (y : ℕ) : ℕ := if isoLongYear y then 53 else 52

def isoWeekPair (d : Date) : ℕ × ℕ :=
  let w0 := (dayOfYear d + 10 - isoDayOfWeek d) / 7
  if w0 = 0 then (d.year - 1, isoWeeksInYear (d.year - 1))
  else if w0 = 53 ∧ isoLongYear d.year = false then (d.year + 1, 1)
  else (d.year, w0)

/-- Key emitted by the serology query: calendar year with ISO week. -/
def serologyKey (d : Date) : ℕ × ℕ := (d.year, (isoWeekPair d).2)

/-- Key emitted by the climate and target queries: ISO week-year with ISO
week. -/
def isoKey (d : Date) : ℕ × ℕ := isoWeekPair d

/-! ### Column naming in the get_days_no_rain query

The `rolling_sum` CTE always names its sum `days_no_rain_12_wk_total`,
while the final `SELECT` reads `days_no_rain_{window}_wk_total` built with
the interpolated window.  Column names are modelled as `List Char`, and
decimal interpolation of a positive number via its base-10 digits. -/

def decDigitsAux : ℕ → ℕ → List ℕ
  | 0, _ => []
  | _ + 1, 0 => []
  | fuel + 1, n + 1 => (n + 1) % 10 :: decDigitsAux fuel ((n + 1) / 10)

/-- Little-endian base-10 digits of `n` (empty for 0). -/
def decDigits (n : ℕ) : List ℕ := decDigitsAux n n

def digitChar (d : ℕ) : Char := Char.ofNat (48 + d)

/-- Decimal rendering of a positive `n`, as string interpolation emits. -/
def decChars (n : ℕ) : List Char := ((decDigits n).reverse).map digitChar

/-- Value of a little-endian digit list. -/
def fromDigits : List ℕ → ℕ
  | [] => 0
  | d :: ds => d + 10 * fromDigits ds

/-- Columns defined by the `rolling_sum` CTE, with its hardcoded
`days_no_rain_12_wk_total`. -/
def rollingSumCTEColumns : List (List Char) :=
  ["year".toList, "eweek".toList, "days_no_rain".toList,
    "days_no_rain_12_wk_total".toList]

/-- Column read by `LAG(days_no_rain_{window}_wk_total, {lag}, 0)` in the
final `SELECT`. -/
def lagColumnRef (window : ℕ) : List Char :=
  "days_no_rain_".toList ++ decChars window ++ "_wk_total".toList

/-! ### Basic length and index lemmas for the serology scans -/

theorem length_switchedList (dom : List ℕ) (ds : List (List ℕ)) :
    (switchedList dom ds).length = ds.length := by
  induction ds generalizing dom with
  | nil => rfl
  | cons d rest ih => simp [switchedList, ih]

theorem length_daysList (c : ℕ) (fl : List Bool) :
    (daysList c fl).length = fl.length := by
  induction fl generalizing c with
  | nil => rfl
  | cons f rest ih => simp [daysList, ih]

theorem length_daysSinceSwitch (doms : List (List ℕ)) :
    (daysSinceSwitch doms).length = doms.length := by
  simp [daysSinceSwitch, length_daysList, length_switchedList]

theorem daysList_getD_zero (c : ℕ) (f : Bool) (rest : List Bool) :
    (daysList c (f :: rest)).getD 0 0 = if f then 0 else c := by
  simp [daysList]

theorem daysList_getD_succ (fl : List Bool) :
    ∀ (c i : ℕ), i + 1 < fl.length →
      (daysList c fl).getD (i + 1) 0 =
        if fl.getD (i + 1) true then 0 else (daysList c fl).getD i 0 + 7 := by
  induction fl with
  | nil => intro c i h; simp at h
  | cons f rest ih =>
      intro c i h
      match i with
      | 0 =>
          match rest, h with
          | g :: r, _ =>
              simp [daysList, daysList_getD_zero]
      | i + 1 =>
          have hlt : i + 1 < rest.length := by
            simpa using h
          simpa [daysList] using ih ((if f then 0 else c) + 7) i hlt

theorem switchedList_getD_succ (ds : List (List ℕ)) :
    ∀ (dom : List ℕ) (i : ℕ), i + 1 < ds.length →
      (switchedList dom ds).getD (i + 1) true =
        decide ((ds.getD i []).toFinset ≠ (ds.getD (i + 1) []).toFinset) := by
  induction ds with
  | nil => intro dom i h; simp at h
  | cons d rest ih =>
      intro dom i h
      match i with
      | 0 =>
          match rest, h with
          | e :: r, _ => simp [switchedList]
      | i + 1 =>
          have hlt : i + 1 < rest.length := by simpa using h
          simpa [switchedList] using ih d i hlt

theorem length_resolveDominant (rows : List (List ℕ)) :
    ∀ p : Option (List ℕ), (resolveDominant p rows).length = rows.length := by
  induction rows with
  | nil => intro p; rfl
  | cons c rest ih => intro p; simp [resolveDominant, ih]

theorem resolveDominant_getD_zero (p : Option (List ℕ)) (c : List ℕ)
    (rest : List (List ℕ)) :
    (resolveDominant p (c :: rest)).getD 0 [] = dominantEdited p c := rfl

theorem resolveDominant_getD_succ (rows : List (List ℕ)) :
    ∀ (p : Option (List ℕ)) (i : ℕ), i + 1 < rows.length →
      (resolveDominant p rows).getD (i + 1) [] =
        dominantEdited (some (rows.getD i [])) (rows.getD (i + 1) []) := by
  induction rows with
  | nil => intro p i h; simp at h
  | cons c rest ih =>
      intro p i h
      match i with
      | 0 =>
          match rest, h with
          | d :: r, _ => simp [resolveDominant]
      | i + 1 =>
          have hlt : i + 1 < rest.length := by simpa using h
          simpa [resolveDominant] using ih (some c) i hlt

theorem dominantEdited_none (c : List ℕ) : dominantEdited none c = c := by
  simp [dominantEdited]

theorem dominantEdited_some (p c : List ℕ) :
    dominantEdited (some p) c =
      if c.length = 1 then c
      else if c.length > 1 ∧ p.length = 1 ∧ p.headD 0 ∈ c then p
      else c := by
  match p with
  | [] => simp [dominantEdited]
  | [x] => simp [dominantEdited]
  | x :: y :: t => simp [dominantEdited]

/-! ### Claim theorems for the strain-switch detector -/

/-- C1: over any sequence of resolved dominant sets, the first emitted
`days_since_switch` is 0; for `i > 0`, if the dominant set at `i` equals
(as a set) the one at `i-1` the value is the previous value plus 7 (hence
non-decreasing inside a run), and otherwise it resets to exactly 0. -/
theorem c1_days_since_switch (doms : List (List ℕ)) (i : ℕ)
    (h : i + 1 < doms.length) :
    (daysSinceSwitch doms).getD 0 0 = 0
    ∧ ((doms.getD (i + 1) []).toFinset = (doms.getD i []).toFinset →
        (daysSinceSwitch doms).getD (i + 1) 0 = (daysSinceSwitch doms).getD i 0 + 7
        ∧ (daysSinceSwitch doms).getD i 0 ≤ (daysSinceSwitch doms).getD (i + 1) 0)
    ∧ ((doms.getD (i + 1) []).toFinset ≠ (doms.getD i []).toFinset →
        (daysSinceSwitch doms).getD (i + 1) 0 = 0) := by
  have h1 : i + 1 < (switchedList [] doms).length := by
    rw [length_switchedList]; exact h
  have key : (daysSinceSwitch doms).getD (i + 1) 0 =
      if (doms.getD i []).toFinset ≠ (doms.getD (i + 1) []).toFinset then 0
      else (daysSinceSwitch doms).getD i 0 + 7 := by
    unfold daysSinceSwitch
    rw [daysList_getD_succ _ 0 i h1, switchedList_getD_succ doms [] i h]
    simp only [decide_eq_true_eq]
  refine ⟨?_, ?_, ?_⟩
  · match doms with
    | [] => rfl
    | d :: rest => simp [daysSinceSwitch, switchedList, daysList]
  · intro heq
    rw [key, if_neg (fun hcontra => hcontra heq.symm)]
    exact ⟨rfl, Nat.le_add_right _ _⟩
  · intro hne
    rw [key, if_pos (Ne.symm hne)]

theorem c1_days_since_switch_witness :
    (0 : ℕ) + 1 < ([[1], [1]] : List (List ℕ)).length
    ∧ ((daysSinceSwitch [[1], [1]]).getD 0 0 = 0
      ∧ ((([[1], [1]] : List (List ℕ)).getD (0 + 1) []).toFinset =
            (([[1], [1]] : List (List ℕ)).getD 0 []).toFinset →
          (daysSinceSwitch [[1], [1]]).getD (0 + 1) 0 =
            (daysSinceSwitch [[1], [1]]).getD 0 0 + 7
          ∧ (daysSinceSwitch [[1], [1]]).getD 0 0 ≤
              (daysSinceSwitch [[1], [1]]).getD (0 + 1) 0)
      ∧ ((([[1], [1]] : List (List ℕ)).getD (0 + 1) []).toFinset ≠
            (([[1], [1]] : List (List ℕ)).getD 0 []).toFinset →
          (daysSinceSwitch [[1], [1]]).getD (0 + 1) 0 = 0)) :=
  ⟨by decide, c1_days_since_switch [[1], [1]] 0 (by decide)⟩

/-- C2 counterexample: on an input whose keys are out of order and
duplicated, the code's detector raises nothing and returns a full result
(one output row per input row), while the claimed behavior is an
`InvalidSequenceError` with no result at all. -/
theorem c2_counterexample :
    keysSortedb (([((2020, 2), [1]), ((2020, 1), [1]), ((2020, 1), [2])] :
        List ((ℤ × ℤ) × List ℕ)).map Prod.fst) = false
    ∧ get_time_since_switch_specChecked
        [((2020, 2), [1]), ((2020, 1), [1]), ((2020, 1), [2])] =
        Except.error "InvalidSequenceError"
    ∧ get_time_since_switch [((2020, 2), [1]), ((2020, 1), [1]), ((2020, 1), [2])] =
        [((2020, 2), 0), ((2020, 1), 7), ((2020, 1), 0)] :=
  ⟨by decide, rfl, by decide⟩

/-- C2 (amended): the detector performs no key validation at all — for every
input sequence, ordered or not, it emits exactly one output row per input
row and preserves the `(year, week)` keys; no error path exists. -/
theorem c2_no_sequence_validation (df : List ((ℤ × ℤ) × List ℕ)) :
    (get_time_since_switch df).length = df.length
    ∧ (get_time_since_switch df).map Prod.fst = df.map Prod.fst := by
  constructor
  · simp [get_time_since_switch, length_daysSinceSwitch]
  · apply List.map_fst_zip
    simp [length_daysSinceSwitch]

/-- C3 counterexample: on weekly tie sets `[{1}, {1,2}, {1,2}]` the code
resolves week 3 from the *raw* previous array `{1,2}` (giving `{1,2}`),
while the claim's rule, which consults the previous week's *resolved* set
`{1}`, would give `{1}`. -/
theorem c3_counterexample :
    resolveDominant none [[1], [1, 2], [1, 2]] = [[1], [1], [1, 2]]
    ∧ resolveDominantSpecPrev none [[1], [1, 2], [1, 2]] = [[1], [1], [1]]
    ∧ resolveDominant none [[1], [1, 2], [1, 2]] ≠
        resolveDominantSpecPrev none [[1], [1, 2], [1, 2]] := by
  decide

/-- C3 (amended): the resolver applies the claimed rule with `prev` taken as
the previous week's *raw* tie set (the `LAG` of the unresolved array), not
the previous resolved set: a singleton `curr` stands; a larger `curr` defers
to a singleton raw `prev` whose element lies in `curr`; in every other case
(first week included) the result is `curr`. -/
theorem c3_resolve_rule (rows : List (List ℕ)) (i : ℕ) (h : i + 1 < rows.length) :
    (0 < rows.length → (resolveDominant none rows).getD 0 [] = rows.getD 0 [])
    ∧ (resolveDominant none rows).getD (i + 1) [] =
        (if (rows.getD (i + 1) []).length = 1 then rows.getD (i + 1) []
         else if (rows.getD (i + 1) []).length > 1 ∧ (rows.getD i []).length = 1
                  ∧ (rows.getD i []).headD 0 ∈ rows.getD (i + 1) [] then rows.getD i []
         else rows.getD (i + 1) []) := by
  constructor
  · intro hpos
    match rows, hpos with
    | c :: rest, _ =>
        rw [resolveDominant_getD_zero, dominantEdited_none]
        rfl
  · rw [resolveDominant_getD_succ rows none i h, dominantEdited_some]

theorem c3_resolve_rule_witness :
    (0 : ℕ) + 1 < ([[1], [1, 2]] : List (List ℕ)).length
    ∧ ((0 < ([[1], [1, 2]] : List (List ℕ)).length →
          (resolveDominant none [[1], [1, 2]]).getD 0 [] =
            ([[1], [1, 2]] : List (List ℕ)).getD 0 [])
      ∧ (resolveDominant none [[1], [1, 2]]).getD (0 + 1) [] =
          (if (([[1], [1, 2]] : List (List ℕ)).getD (0 + 1) []).length = 1 then
            ([[1], [1, 2]] : List (List ℕ)).getD (0 + 1) []
           else if (([[1], [1, 2]] : List (List ℕ)).getD (0 + 1) []).length > 1
                ∧ (([[1], [1, 2]] : List (List ℕ)).getD 0 []).length = 1
                ∧ (([[1], [1, 2]] : List (List ℕ)).getD 0 []).headD 0 ∈
                    ([[1], [1, 2]] : List (List ℕ)).getD (0 + 1) [] then
            ([[1], [1, 2]] : List (List ℕ)).getD 0 []
           else ([[1], [1, 2]] : List (List ℕ)).getD (0 + 1) [])) :=
  ⟨by decide, c3_resolve_rule [[1], [1, 2]] 0 (by decide)⟩

/-! ### Lemmas for the climate transforms -/

theorem getD_range_map {α : Type} (f : ℕ → α) (n i : ℕ) (d : α) (h : i < n) :
    ((List.range n).map f).getD i d = f i := by
  have hlen : i < ((List.range n).map f).length := by simpa using h
  rw [List.getD_eq_getElem _ _ hlen]
  simp

theorem length_lagShift (l : ℕ) (xs : List ℚ) : (lagShift l xs).length = xs.length := by
  simp [lagShift]

theorem length_rollingAvg (w : ℕ) (xs : List ℚ) :
    (rollingAvg w xs).length = xs.length := by
  simp [rollingAvg]

theorem length_meanCenter (xs : List ℚ) : (meanCenter xs).length = xs.length := by
  simp [meanCenter]

theorem mean_singleton (x : ℚ) : mean [x] = x := by
  simp [mean]

theorem sum_map_add_const (c : ℚ) (xs : List ℚ) :
    (xs.map (fun x => x + c)).sum = xs.sum + xs.length * c := by
  induction xs with
  | nil => simp
  | cons a t ih => simp [ih]; ring

theorem mean_map_add_const (c : ℚ) (a : ℚ) (t : List ℚ) :
    mean ((a :: t).map (fun x => x + c)) = mean (a :: t) + c := by
  have hlen : (a :: t).length ≠ 0 := by simp
  have hne : (((a :: t).length : ℕ) : ℚ) ≠ 0 := Nat.cast_ne_zero.mpr hlen
  unfold mean
  rw [List.length_map, sum_map_add_const]
  field_simp
  ring

theorem meanCenter_map_add (c : ℚ) (xs : List ℚ) :
    meanCenter (xs.map (fun x => x + c)) = meanCenter xs := by
  cases xs with
  | nil => rfl
  | cons a t =>
      calc meanCenter ((a :: t).map (fun x => x + c))
          = ((a :: t).map (fun x => x + c)).map
              (fun x => x - (mean (a :: t) + c)) := by
            rw [meanCenter, mean_map_add_const]
        _ = (a :: t).map (fun x => x - mean (a :: t)) := by
            rw [List.map_map]
            refine List.map_congr_left ?_
            intro x _
            simp only [Function.comp_apply]
            ring
        _ = meanCenter (a :: t) := rfl

/-- C4 counterexample: the SSTA transform applied to the one-week series
`[2]` with `W = 1`, `L = 0` returns `[2]`, while a transform that first
mean-centered the series would return `[0]`. -/
theorem c4_counterexample :
    get_elnino34_ssta_weekly 1 0 [2] ≠ lagShift 0 (rollingAvg 1 (meanCenter [2])) := by
  norm_num [get_elnino34_ssta_weekly, get_temp_weekly, lagShift, rollingAvg,
    meanCenter, mean, windowSlice, List.range_succ]

/-- C4 (amended): only the temperature transform mean-centers its series
before the rolling mean — its output is invariant under adding a constant
to every raw value — while the SSTA transform computes the rolling mean
directly over the raw values with no centering step. -/
theorem c4_mean_centering (c : ℚ) (xs : List ℚ) (w l : ℕ) :
    get_temp_weekly w l (xs.map (fun x => x + c)) = get_temp_weekly w l xs
    ∧ get_elnino34_ssta_weekly w l xs = lagShift l (rollingAvg w xs) := by
  constructor
  · unfold get_temp_weekly
    rw [meanCenter_map_add]
  · rfl

theorem rollingAvg_getD (w i : ℕ) (xs : List ℚ) (h : i < xs.length) :
    (rollingAvg w xs).getD i 0 = mean (windowSlice w i xs) :=
  getD_range_map _ _ _ _ h

theorem rollingSum_getD (w i : ℕ) (xs : List ℚ) (h : i < xs.length) :
    (rollingSum w xs).getD i 0 = (windowSlice w i xs).sum :=
  getD_range_map _ _ _ _ h

theorem rollingSumByYear_getD (w i : ℕ) (rows : List (ℤ × ℚ)) (h : i < rows.length) :
    (rollingSumByYear w rows).getD i 0 = (partitionWindow w i rows).sum :=
  getD_range_map _ _ _ _ h

theorem windowSlice_zero (w : ℕ) (hw : 1 ≤ w) (x : ℚ) (xs : List ℚ) :
    windowSlice w 0 (x :: xs) = [x] := by
  simp [windowSlice, Nat.sub_eq_zero_of_le hw]

theorem lastWindow_singleton (w : ℕ) (hw : 1 ≤ w) (x : ℚ) :
    lastWindow w [x] = [x] := by
  simp [lastWindow, Nat.sub_eq_zero_of_le hw]

theorem lagShift_getD (l i : ℕ) (xs : List ℚ) (h : i < xs.length) :
    (lagShift l xs).getD i 0 = if i < l then 0 else xs.getD (i - l) 0 := by
  have hlen : i < (lagShift l xs).length := by rw [length_lagShift]; exact h
  rw [List.getD_eq_getElem _ _ hlen]
  unfold lagShift at hlen ⊢
  rw [List.getElem_take]
  by_cases hil : i < l
  · rw [if_pos hil]
    have hrep : i < (List.replicate l (0 : ℚ)).length := by simpa using hil
    rw [List.getElem_append_left hrep]
    exact List.getElem_replicate _ _
  · rw [if_neg hil]
    have hge : (List.replicate l (0 : ℚ)).length ≤ i := by
      simpa using Nat.le_of_not_lt hil
    have hsub : i - l < xs.length := by omega
    rw [List.getElem_append_right hge, List.getD_eq_getElem xs 0 hsub]
    congr 1
    simp

theorem partitionWindow_fresh (w i : ℕ) (rows : List (ℤ × ℚ)) (hw : 1 ≤ w)
    (hi : i < rows.length)
    (hfresh : ∀ j ∈ List.range i, (rows.getD j (0, 0)).1 ≠ (rows.getD i (0, 0)).1) :
    partitionWindow w i rows = [(rows.getD i (0, 0)).2] := by
  have hy : rows.getD i (0, 0) = rows[i] := List.getD_eq_getElem rows (0, 0) hi
  have htake : rows.take (i + 1) = rows.take i ++ [rows[i]] := by
    rw [List.take_succ, List.getElem?_eq_getElem hi]
    rfl
  have hnil : (rows.take i).filter (fun r => r.1 == (rows.getD i (0, 0)).1) = [] := by
    apply List.filter_eq_nil_iff.mpr
    intro a ha
    rcases List.mem_take_iff_getElem.mp ha with ⟨j, hj, rfl⟩
    have hji : j < i := lt_of_lt_of_le hj (min_le_left _ _)
    have hjr : j < rows.length := lt_of_lt_of_le hj (min_le_right _ _)
    have hne := hfresh j (List.mem_range.mpr hji)
    rw [List.getD_eq_getElem rows (0, 0) hjr] at hne
    simpa using hne
  have hpart : ((rows.take (i + 1)).filter
      (fun r => r.1 == (rows.getD i (0, 0)).1)).map Prod.snd =
      [(rows.getD i (0, 0)).2] := by
    rw [htake, List.filter_append, hnil, hy]
    simp
  unfold partitionWindow
  rw [hpart, lastWindow_singleton w hw]

/-- C5 counterexample: the dry-days rolling sum is partitioned by year, so
on the two-row series `[(2020, 1), (2021, 5)]` with `W = 2` it yields
`[1, 5]`, not the whole-series trailing sum `[1, 6]` the claim requires. -/
theorem c5_counterexample :
    (rollingSumByYear 2 [((2020 : ℤ), (1 : ℚ)), ((2021 : ℤ), (5 : ℚ))]).getD 1 0 ≠
      (rollingSum 2 [(1 : ℚ), 5]).getD 1 0 := by
  have h1 : (rollingSumByYear 2 [((2020 : ℤ), (1 : ℚ)), ((2021 : ℤ), (5 : ℚ))]).getD 1 0 = 5 := by
    rw [rollingSumByYear_getD _ _ _ (by decide),
      partitionWindow_fresh _ _ _ (by decide) (by decide) (by decide)]
    norm_num
  have h2 : (rollingSum 2 [(1 : ℚ), 5]).getD 1 0 = 6 := by
    rw [rollingSum_getD _ _ _ (by decide)]
    norm_num [windowSlice]
  rw [h1, h2]
  norm_num

/-- C5 (amended): the temperature and SSTA rolling means aggregate the
trailing `W`-week window of the whole series with a partial window at the
start — at index 0 the aggregate is exactly week 0's value — and the
dry-days rolling sum also uses a partial window, but restarted at every
year boundary: at a row whose year differs from all earlier rows, the sum
is that row's value alone regardless of `W`. -/
theorem c5_rolling_windows (w : ℕ) (hw : 1 ≤ w) (x : ℚ) (xs : List ℚ)
    (rows : List (ℤ × ℚ)) (i : ℕ) (hi : i < rows.length)
    (hfresh : ∀ j ∈ List.range i, (rows.getD j (0, 0)).1 ≠ (rows.getD i (0, 0)).1) :
    (rollingAvg w (x :: xs)).getD 0 0 = x
    ∧ (rollingSum w (x :: xs)).getD 0 0 = x
    ∧ (rollingSumByYear w rows).getD i 0 = (rows.getD i (0, 0)).2 := by
  refine ⟨?_, ?_, ?_⟩
  · rw [rollingAvg_getD w 0 _ (by simp), windowSlice_zero w hw, mean_singleton]
  · rw [rollingSum_getD w 0 _ (by simp), windowSlice_zero w hw]
    simp
  · rw [rollingSumByYear_getD w i rows hi, partitionWindow_fresh w i rows hw hi hfresh]
    simp

theorem c5_rolling_windows_witness :
    1 ≤ 1 ∧ (1 : ℕ) < ([((2020 : ℤ), (1 : ℚ)), ((2021 : ℤ), (5 : ℚ))] :
        List (ℤ × ℚ)).length
    ∧ ((rollingAvg 1 ((5 : ℚ) :: [])).getD 0 0 = 5
      ∧ (rollingSum 1 ((5 : ℚ) :: [])).getD 0 0 = 5
      ∧ (rollingSumByYear 1 [((2020 : ℤ), (1 : ℚ)), ((2021 : ℤ), (5 : ℚ))]).getD 1 0 =
          (([((2020 : ℤ), (1 : ℚ)), ((2021 : ℤ), (5 : ℚ))] :
            List (ℤ × ℚ)).getD 1 (0, 0)).2) :=
  ⟨by decide, by decide,
    c5_rolling_windows 1 (by decide) 5 [] [((2020 : ℤ), (1 : ℚ)), ((2021 : ℤ), (5 : ℚ))]
      1 (by decide) (by decide)⟩

/-- C6: the lag step reads the rolling aggregate `L` weeks earlier — output
week `i` equals the rolling aggregate of week `i - L` — and the first `L`
output weeks, for which no source row exists, are 0, for the temperature
and SSTA features alike. -/
theorem c6_lag_shift (w l i : ℕ) (xs : List ℚ) (h : i < xs.length) :
    (i < l → (get_temp_weekly w l xs).getD i 0 = 0
      ∧ (get_elnino34_ssta_weekly w l xs).getD i 0 = 0)
    ∧ (l ≤ i →
        (get_temp_weekly w l xs).getD i 0 =
          (rollingAvg w (meanCenter xs)).getD (i - l) 0
      ∧ (get_elnino34_ssta_weekly w l xs).getD i 0 =
          (rollingAvg w xs).getD (i - l) 0) := by
  have h1 : i < (rollingAvg w (meanCenter xs)).length := by
    rw [length_rollingAvg, length_meanCenter]; exact h
  have h2 : i < (rollingAvg w xs).length := by
    rw [length_rollingAvg]; exact h
  constructor
  · intro hl
    unfold get_temp_weekly get_elnino34_ssta_weekly
    rw [lagShift_getD l i _ h1, lagShift_getD l i _ h2, if_pos hl, if_pos hl]
    exact ⟨rfl, rfl⟩
  · intro hl
    have hnl : ¬ i < l := Nat.not_lt.mpr hl
    unfold get_temp_weekly get_elnino34_ssta_weekly
    rw [lagShift_getD l i _ h1, lagShift_getD l i _ h2, if_neg hnl, if_neg hnl]
    exact ⟨rfl, rfl⟩

theorem c6_lag_shift_witness :
    (2 : ℕ) < ([(1 : ℚ), 2, 3] : List ℚ).length
    ∧ (((2 : ℕ) < 2 → (get_temp_weekly 3 2 [(1 : ℚ), 2, 3]).getD 2 0 = 0
        ∧ (get_elnino34_ssta_weekly 3 2 [(1 : ℚ), 2, 3]).getD 2 0 = 0)
      ∧ ((2 : ℕ) ≤ 2 →
          (get_temp_weekly 3 2 [(1 : ℚ), 2, 3]).getD 2 0 =
            (rollingAvg 3 (meanCenter [(1 : ℚ), 2, 3])).getD (2 - 2) 0
        ∧ (get_elnino34_ssta_weekly 3 2 [(1 : ℚ), 2, 3]).getD 2 0 =
            (rollingAvg 3 [(1 : ℚ), 2, 3]).getD (2 - 2) 0)) :=
  ⟨by decide, c6_lag_shift 3 2 2 [(1 : ℚ), 2, 3] (by decide)⟩

/-- C7: each of the three rolling-window transforms succeeds exactly when
the window is at least 1; for `window < 1` every one of them fails at the
validation step with the window error, before any query is built. -/
theorem c7_window_validation (w : ℤ) (l : ℕ) (xs : List ℚ) (rows : List (ℤ × ℚ)) :
    (get_temp_weekly_checked w l xs =
        Except.error "Window must be a positive integer" ↔ w < 1)
    ∧ (get_elnino34_ssta_weekly_checked w l xs =
        Except.error "Window must be a positive integer" ↔ w < 1)
    ∧ (get_days_no_rain_checked w l rows =
        Except.error "Window must be a positive integer" ↔ w < 1)
    ∧ (isOkb (get_temp_weekly_checked w l xs) = true ↔ 1 ≤ w)
    ∧ (isOkb (get_elnino34_ssta_weekly_checked w l xs) = true ↔ 1 ≤ w)
    ∧ (isOkb (get_days_no_rain_checked w l rows) = true ↔ 1 ≤ w) := by
  by_cases hw : w < 1 <;>
    simp [get_temp_weekly_checked, get_elnino34_ssta_weekly_checked,
      get_days_no_rain_checked, hw, isOkb]
  all_goals omega

/-! ### Claim theorems for the assembler, the join keys and the column names -/

/-- C8: in the assembled training table, each row comes from a week of the
primary temperature series; a missing joined `days_since_switch` becomes
the integer 0 while a present one keeps its value, and the other joined
features keep their missing markers untouched. -/
theorem c8_join_fill (temp : List ((ℤ × ℤ) × ℚ)) (sero : ℤ × ℤ → Option ℤ)
    (nino rain tgt : ℤ × ℤ → Option ℚ) (pop : ℤ → Option ℚ) (i : ℕ)
    (h : i < temp.length) :
    (sero (temp.getD i ((0, 0), 0)).1 = none →
        ((assemble temp sero nino rain tgt pop).getD i defaultRow).days_since_switch = 0)
    ∧ (∀ d : ℤ, sero (temp.getD i ((0, 0), 0)).1 = some d →
        ((assemble temp sero nino rain tgt pop).getD i defaultRow).days_since_switch = d)
    ∧ ((assemble temp sero nino rain tgt pop).getD i defaultRow).nino =
        nino (temp.getD i ((0, 0), 0)).1
    ∧ ((assemble temp sero nino rain tgt pop).getD i defaultRow).days_no_rain =
        rain (temp.getD i ((0, 0), 0)).1
    ∧ ((assemble temp sero nino rain tgt pop).getD i defaultRow).cases =
        tgt (temp.getD i ((0, 0), 0)).1 := by
  have hlen : i < (assemble temp sero nino rain tgt pop).length := by
    simp [assemble, h]
  have ht : temp.getD i ((0, 0), 0) = temp[i] := List.getD_eq_getElem temp _ h
  have ha : (assemble temp sero nino rain tgt pop).getD i defaultRow =
      (assemble temp sero nino rain tgt pop)[i] :=
    List.getD_eq_getElem _ _ hlen
  rw [ha, ht]
  unfold assemble
  simp only [List.getElem_map]
  refine ⟨?_, ?_, ?_, ?_, ?_⟩ <;> intros <;> simp [*]

theorem c8_join_fill_witness :
    (0 : ℕ) < ([(((2020 : ℤ), (1 : ℤ)), (25 : ℚ))] : List ((ℤ × ℤ) × ℚ)).length
    ∧ (((fun _ => (none : Option ℤ))
          ((([(((2020 : ℤ), (1 : ℤ)), (25 : ℚ))] : List ((ℤ × ℤ) × ℚ)).getD 0 ((0, 0), 0)).1) = none →
        ((assemble [(((2020 : ℤ), (1 : ℤ)), (25 : ℚ))] (fun _ => (none : Option ℤ))
            (fun _ => (none : Option ℚ)) (fun _ => (none : Option ℚ))
            (fun _ => (none : Option ℚ)) (fun _ => (none : Option ℚ))).getD 0
          defaultRow).days_since_switch = 0)
      ∧ (∀ d : ℤ, (fun _ => (none : Option ℤ))
          ((([(((2020 : ℤ), (1 : ℤ)), (25 : ℚ))] : List ((ℤ × ℤ) × ℚ)).getD 0 ((0, 0), 0)).1) = some d →
        ((assemble [(((2020 : ℤ), (1 : ℤ)), (25 : ℚ))] (fun _ => (none : Option ℤ))
            (fun _ => (none : Option ℚ)) (fun _ => (none : Option ℚ))
            (fun _ => (none : Option ℚ)) (fun _ => (none : Option ℚ))).getD 0
          defaultRow).days_since_switch = d)
      ∧ ((assemble [(((2020 : ℤ), (1 : ℤ)), (25 : ℚ))] (fun _ => (none : Option ℤ))
            (fun _ => (none : Option ℚ)) (fun _ => (none : Option ℚ))
            (fun _ => (none : Option ℚ)) (fun _ => (none : Option ℚ))).getD 0
          defaultRow).nino =
          (fun _ => (none : Option ℚ))
            ((([(((2020 : ℤ), (1 : ℤ)), (25 : ℚ))] : List ((ℤ × ℤ) × ℚ)).getD 0 ((0, 0), 0)).1)
      ∧ ((assemble [(((2020 : ℤ), (1 : ℤ)), (25 : ℚ))] (fun _ => (none : Option ℤ))
            (fun _ => (none : Option ℚ)) (fun _ => (none : Option ℚ))
            (fun _ => (none : Option ℚ)) (fun _ => (none : Option ℚ))).getD 0
          defaultRow).days_no_rain =
          (fun _ => (none : Option ℚ))
            ((([(((2020 : ℤ), (1 : ℤ)), (25 : ℚ))] : List ((ℤ × ℤ) × ℚ)).getD 0 ((0, 0), 0)).1)
      ∧ ((assemble [(((2020 : ℤ), (1 : ℤ)), (25 : ℚ))] (fun _ => (none : Option ℤ))
            (fun _ => (none : Option ℚ)) (fun _ => (none : Option ℚ))
            (fun _ => (none : Option ℚ)) (fun _ => (none : Option ℚ))).getD 0
          defaultRow).cases =
          (fun _ => (none : Option ℚ))
            ((([(((2020 : ℤ), (1 : ℤ)), (25 : ℚ))] : List ((ℤ × ℤ) × ℚ)).getD 0 ((0, 0), 0)).1)) :=
  ⟨by decide,
    c8_join_fill [(((2020 : ℤ), (1 : ℤ)), (25 : ℚ))] (fun _ => none) (fun _ => none)
      (fun _ => none) (fun _ => none) (fun _ => none) 0 (by decide)⟩

/-- C9: the serology query keys its rows by `(calendar year, ISO week)`
while the climate and target queries key by `(ISO week-year, ISO week)`;
at 1 January 2021 (ISO week 53 of week-year 2020) the serology key is
`(2021, 53)` and the others' key is `(2020, 53)`, so the keys disagree and
the claimed equality of join keys fails. -/
theorem c9_key_mismatch :
    serologyKey ⟨2021, 1, 1⟩ = (2021, 53)
    ∧ isoKey ⟨2021, 1, 1⟩ = (2020, 53)
    ∧ serologyKey ⟨2021, 1, 1⟩ ≠ isoKey ⟨2021, 1, 1⟩ := by
  decide

/-! Digit lemmas for the interpolated column name. -/

theorem fromDigits_decDigitsAux :
    ∀ fuel n : ℕ, n ≤ fuel → fromDigits (decDigitsAux fuel n) = n := by
  intro fuel
  induction fuel with
  | zero =>
      intro n h
      interval_cases n
      rfl
  | succ f ih =>
      intro n h
      match n with
      | 0 => rfl
      | m + 1 =>
          have hdiv : (m + 1) / 10 ≤ f := by
            have hlt : (m + 1) / 10 < m + 1 := Nat.div_lt_self (Nat.succ_pos m) (by omega)
            omega
          show fromDigits ((m + 1) % 10 :: decDigitsAux f ((m + 1) / 10)) = m + 1
          rw [fromDigits, ih _ hdiv]
          omega

theorem fromDigits_decDigits (n : ℕ) : fromDigits (decDigits n) = n :=
  fromDigits_decDigitsAux n n le_rfl

theorem decDigitsAux_lt_ten :
    ∀ fuel n : ℕ, ∀ d ∈ decDigitsAux fuel n, d < 10 := by
  intro fuel
  induction fuel with
  | zero => intro n d hd; simp [decDigitsAux] at hd
  | succ f ih =>
      intro n d hd
      match n with
      | 0 => simp [decDigitsAux] at hd
      | m + 1 =>
          rw [show decDigitsAux (f + 1) (m + 1) =
              (m + 1) % 10 :: decDigitsAux f ((m + 1) / 10) from rfl] at hd
          rcases List.mem_cons.mp hd with hh | hh
          · rw [hh]
            exact Nat.mod_lt _ (by omega)
          · exact ih _ d hh

theorem digitChar_inj_lt_ten (a b : ℕ) (ha : a < 10) (hb : b < 10)
    (h : digitChar a = digitChar b) : a = b := by
  interval_cases a <;> interval_cases b <;> revert h <;> decide

theorem map_digitChar_inj :
    ∀ l1 l2 : List ℕ, (∀ d ∈ l1, d < 10) → (∀ d ∈ l2, d < 10) →
      l1.map digitChar = l2.map digitChar → l1 = l2 := by
  intro l1
  induction l1 with
  | nil =>
      intro l2 _ _ h
      cases l2 with
      | nil => rfl
      | cons b t => simp at h
  | cons a t ih =>
      intro l2 h1 h2 h
      cases l2 with
      | nil => simp at h
      | cons b t2 =>
          simp only [List.map_cons, List.cons.injEq] at h
          have ha : a < 10 := h1 a (List.mem_cons_self a t)
          have hb : b < 10 := h2 b (List.mem_cons_self b t2)
          have hab := digitChar_inj_lt_ten a b ha hb h.1
          have ht := ih t2 (fun d hd => h1 d (List.mem_cons_of_mem _ hd))
            (fun d hd => h2 d (List.mem_cons_of_mem _ hd)) h.2
          rw [hab, ht]

theorem decChars_inj (m n : ℕ) (h : decChars m = decChars n) : m = n := by
  have hm : ∀ d ∈ (decDigits m).reverse, d < 10 := fun d hd =>
    decDigitsAux_lt_ten m m d (List.mem_reverse.mp hd)
  have hn : ∀ d ∈ (decDigits n).reverse, d < 10 := fun d hd =>
    decDigitsAux_lt_ten n n d (List.mem_reverse.mp hd)
  have hrev := map_digitChar_inj _ _ hm hn h
  have hdig : decDigits m = decDigits n := by
    have := congrArg List.reverse hrev
    simpa using this
  calc m = fromDigits (decDigits m) := (fromDigits_decDigits m).symm
    _ = fromDigits (decDigits n) := by rw [hdig]
    _ = n := fromDigits_decDigits n

/-- C10: for every window passing the validation, the column
`days_no_rain_{window}_wk_total` that the final `SELECT` reads is among
the columns the `rolling_sum` CTE defines exactly when the window is 12 —
for every other window the query references an undefined column and the
call can only fail. -/
theorem c10_hardcoded_column (w : ℕ) (_hw : 1 ≤ w) :
    lagColumnRef w ∈ rollingSumCTEColumns ↔ w = 12 := by
  constructor
  · intro hmem
    have hlen : (lagColumnRef w).length = 13 + ((decChars w).length + 9) := by
      unfold lagColumnRef
      rw [List.length_append, List.length_append,
        show ("days_no_rain_".toList).length = 13 from rfl,
        show ("_wk_total".toList).length = 9 from rfl]
      omega
    have hmem' : lagColumnRef w = "year".toList ∨ lagColumnRef w = "eweek".toList
        ∨ lagColumnRef w = "days_no_rain".toList
        ∨ lagColumnRef w = "days_no_rain_12_wk_total".toList := by
      simpa [rollingSumCTEColumns] using hmem
    rcases hmem' with hh | hh | hh | hh
    · have := congrArg List.length hh
      rw [hlen, show ("year".toList).length = 4 from rfl] at this
      omega
    · have := congrArg List.length hh
      rw [hlen, show ("eweek".toList).length = 5 from rfl] at this
      omega
    · have := congrArg List.length hh
      rw [hlen, show ("days_no_rain".toList).length = 12 from rfl] at this
      omega
    · have hsplit : "days_no_rain_12_wk_total".toList =
          "days_no_rain_".toList ++ decChars 12 ++ "_wk_total".toList := by decide
      rw [hsplit] at hh
      unfold lagColumnRef at hh
      have hmid : decChars w = decChars 12 :=
        List.append_cancel_left (List.append_cancel_right hh)
      exact decChars_inj w 12 hmid
  · intro hh
    rw [hh]
    decide

theorem c10_hardcoded_column_witness :
    1 ≤ 5 ∧ (lagColumnRef 5 ∈ rollingSumCTEColumns ↔ 5 = 12) :=
  ⟨by decide, c10_hardcoded_column 5 (by decide)⟩

end Dengue
